import Mathlib

/-
Verification development for the jest-utils repository.

The definitions below are a shallow embedding of the two modules the claims
are about:
  * `src/lib/tools/memory/leak-detector.ts` (class `LeakDetector`), and
  * `src/reporters/custom-reporter.js` (flaky-test tracker inside
    `initializeFlakyTracker`).

Modelling conventions:
  * JS numbers holding integer values (heap bytes, counts, millisecond
    timestamps) are embedded as `ℤ`; genuinely fractional values
    (thresholds, rates) as `ℚ`.  Division of two integer-valued numbers is
    `Rat.divInt`, and the IEEE-754 special cases of division by zero are
    made explicit in `jsDiv`/`JSNum` below (JS division never throws).
  * The ambient process/runtime state read by the capture helpers is passed
    explicitly (`RuntimeEnv`, `Observation`); a capture that can raise a JS
    `TypeError` returns `Except`.
  * JS `Map`s are association lists in insertion order; JS `Set`s of strings
    are insertion-ordered duplicate-free lists.
  * Formatted display strings (the `message` fields built with
    `toFixed`/template literals, the log lines of `reportLeaks`, and the
    `worstOffenders`/`leakTypeBreakdown` presentation parts of
    `getSummary`) are presentation-only and are not consulted by any claim;
    they are omitted from the embedding.
-/

namespace JestUtils

/-- Report severity; the source type is the string union 'low' | 'medium' | 'high'. -/
inductive Severity where
  | low
  | medium
  | high
deriving DecidableEq, Repr

/-- A JS number as it can arise in the leak analyses: an exact rational,
one of the two infinities, or NaN. -/
inductive JSNum where
  | num (q : ℚ)
  | posInf
  | negInf
  | nan
deriving DecidableEq, Repr

/-- JS division `a / b` of two integer-valued numbers.  Division by zero
follows IEEE-754 (`+Infinity`, `-Infinity` or `NaN`) and never throws. -/
def jsDiv (a b : ℤ) : JSNum :=
  if b = 0 then
    if 0 < a then JSNum.posInf else if a < 0 then JSNum.negInf else JSNum.nan
  else JSNum.num (Rat.divInt a b)

/-- JS comparison `x > t` of a number `x` against a finite threshold `t`.
Comparisons against NaN are false. -/
def jsGt (x : JSNum) (t : ℚ) : Bool :=
  match x with
  | JSNum.num q => decide (q > t)
  | JSNum.posInf => true
  | JSNum.negInf => false
  | JSNum.nan => false

/-- The `details` payloads attached to the five kinds of leak report
(`details?: any` in the source). -/
inductive LeakDetails where
  | memLeak (initialHeapUsed finalHeapUsed difference : ℤ) (growthRate : JSNum)
  | memGrowth (growthRate : JSNum) (memoryDiffMB : ℚ)
  | globalLeak (newGlobals : List String) (totalCount : ℕ)
  | timerLeak (initialCount finalCount leakedTimers : ℤ)
  | listenerLeak (initialCount finalCount leakedListeners : ℤ)
deriving DecidableEq, Repr

/-- Interface `LeakReport`.  The formatted `message` string is
presentation-only and omitted. -/
structure LeakReport where
  type : String
  severity : Severity
  details : LeakDetails
  recommendation : String
deriving DecidableEq, Repr

/-- The subset of `LeakDetectorOptions` consulted by the analyses.  The
reporting/filtering options (snapshot generation, log file, patterns) only
drive I/O and are omitted. -/
structure LeakDetectorOptions where
  memoryThresholdMB : ℚ
  heapGrowthThreshold : ℚ
  trackEventListeners : Bool
  trackTimers : Bool
  trackGlobals : Bool
deriving Repr

/-- `MemoryUsageWithTimestamp`: of the `NodeJS.MemoryUsage` byte fields only
`heapUsed` is ever consulted, so only it is embedded. -/
structure MemoryUsage where
  heapUsed : ℤ
  timestamp : ℤ
deriving DecidableEq, Repr

/-- Interface `TimerState`. -/
structure TimerState where
  count : ℤ
  timestamp : ℤ
deriving DecidableEq, Repr

/-- Interface `EventListenerState`. -/
structure EventListenerState where
  count : ℤ
  timestamp : ℤ
deriving DecidableEq, Repr

/-- Interface `TestMetrics`. -/
structure TestMetrics where
  testName : String
  testFile : String
  startTime : ℤ
  endTime : Option ℤ
  duration : Option ℤ
  status : Option String
  initialMemory : MemoryUsage
  finalMemory : Option MemoryUsage
  initialGlobals : List String
  finalGlobals : Option (List String)
  initialTimers : TimerState
  finalTimers : Option TimerState
  initialEventListeners : EventListenerState
  finalEventListeners : Option EventListenerState
  leaksDetected : List LeakReport
  warnings : List LeakReport
deriving DecidableEq, Repr

/-- Lookup in a JS `Map` embedded as an association list (`Map.get`). -/
def mapGet {α : Type} (l : List (String × α)) (k : String) : Option α :=
  (l.find? (fun p => p.1 == k)).map (fun p => p.2)

/-- `Map.set`: replace the binding in place when the key exists (this also
models in-place mutation of the stored object), append otherwise. -/
def mapSet {α : Type} (l : List (String × α)) (k : String) (v : α) :
    List (String × α) :=
  if l.any (fun p => p.1 == k) then
    l.map (fun p => if p.1 == k then (k, v) else p)
  else l ++ [(k, v)]

/-- The detector state carried across `startTest`/`finishTest` calls: the
`testMetrics` map and `globalState.currentTest`. -/
structure DetectorState where
  testMetrics : List (String × TestMetrics)
  currentTest : Option String
deriving DecidableEq, Repr

/-- One observation of the ambient process state, as captured (successfully)
at a `startTest` or `finishTest` call: `Date.now()`, the heap usage, the
global property names, and the timer/listener counts. -/
structure Observation where
  now : ℤ
  heapUsed : ℤ
  globals : List String
  timerCount : ℤ
  listenerCount : ℤ
deriving DecidableEq, Repr

/-- Method `analyzeMemoryLeak`: returns the reports pushed onto
`leaksDetected` (first component) and onto `warnings` (second). -/
def analyzeMemoryLeak (opts : LeakDetectorOptions) (m : TestMetrics) :
    List LeakReport × List LeakReport :=
  match m.finalMemory with
  | none => ([], [])
  | some finalMemory =>
    let memoryDiff := finalMemory.heapUsed - m.initialMemory.heapUsed
    let memoryDiffMB : ℚ := Rat.divInt memoryDiff (1024 * 1024)
    let heapGrowthRate := jsDiv memoryDiff m.initialMemory.heapUsed
    if memoryDiffMB > opts.memoryThresholdMB then
      ([{ type := "MEMORY_LEAK"
          severity := Severity.high
          details := LeakDetails.memLeak m.initialMemory.heapUsed
            finalMemory.heapUsed memoryDiff heapGrowthRate
          recommendation := "Check for objects being retained in memory, consider using WeakMap/WeakSet for references" }],
       [])
    else if jsGt heapGrowthRate opts.heapGrowthThreshold then
      ([],
       [{ type := "MEMORY_GROWTH"
          severity := Severity.medium
          details := LeakDetails.memGrowth heapGrowthRate memoryDiffMB
          recommendation := "Monitor memory usage patterns and consider optimizing object creation" }])
    else ([], [])

/-- Method `diffGlobalState`: iterate the final set in insertion order and
collect the names absent from the initial set. -/
def diffGlobalState (initial finalGlobals : List String) : List String :=
  finalGlobals.filter (fun prop => !(initial.contains prop))

/-- Method `analyzeGlobalLeak`: reports pushed onto `leaksDetected`. -/
def analyzeGlobalLeak (opts : LeakDetectorOptions) (m : TestMetrics) :
    List LeakReport :=
  if !opts.trackGlobals then []
  else
    match m.finalGlobals with
    | none => []
    | some finalGlobals =>
      let newGlobals := diffGlobalState m.initialGlobals finalGlobals
      if 0 < newGlobals.length then
        [{ type := "GLOBAL_VARIABLE_LEAK"
           severity := if 5 < newGlobals.length then Severity.high else Severity.medium
           details := LeakDetails.globalLeak (newGlobals.take 10) newGlobals.length
           recommendation := "Clean up global variables in afterEach hooks or use proper scoping" }]
      else []

/-- Method `analyzeTimerLeak`: reports pushed onto `leaksDetected`. -/
def analyzeTimerLeak (opts : LeakDetectorOptions) (m : TestMetrics) :
    List LeakReport :=
  if !opts.trackTimers then []
  else
    match m.finalTimers with
    | none => []
    | some finalTimers =>
      let timerDiff := finalTimers.count - m.initialTimers.count
      if 0 < timerDiff then
        [{ type := "TIMER_LEAK"
           severity := if 5 < timerDiff then Severity.high else Severity.medium
           details := LeakDetails.timerLeak m.initialTimers.count finalTimers.count timerDiff
           recommendation := "Use clearTimeout() and clearInterval() to clean up timers" }]
      else []

/-- Method `analyzeEventListenerLeak`: reports pushed onto `leaksDetected`. -/
def analyzeEventListenerLeak (opts : LeakDetectorOptions) (m : TestMetrics) :
    List LeakReport :=
  if !opts.trackEventListeners then []
  else
    match m.finalEventListeners with
    | none => []
    | some finalEventListeners =>
      let listenerDiff := finalEventListeners.count - m.initialEventListeners.count
      if 0 < listenerDiff then
        [{ type := "EVENT_LISTENER_LEAK"
           severity := if 10 < listenerDiff then Severity.high else Severity.medium
           details := LeakDetails.listenerLeak m.initialEventListeners.count
             finalEventListeners.count listenerDiff
           recommendation := "Use removeEventListener() or AbortController to clean up event listeners" }]
      else []

/-- Method `startTest`: create the metrics record from the initial captures
and store it under `testFile > testName`. -/
def startTest (st : DetectorState) (testName testFile : String)
    (obs : Observation) : String × DetectorState :=
  let testId := testFile ++ " > " ++ testName
  let metrics : TestMetrics := {
    testName := testName
    testFile := testFile
    startTime := obs.now
    endTime := none
    duration := none
    status := none
    initialMemory := { heapUsed := obs.heapUsed, timestamp := obs.now }
    finalMemory := none
    initialGlobals := obs.globals
    finalGlobals := none
    initialTimers := { count := obs.timerCount, timestamp := obs.now }
    finalTimers := none
    initialEventListeners := { count := obs.listenerCount, timestamp := obs.now }
    finalEventListeners := none
    leaksDetected := []
    warnings := [] }
  (testId,
   { testMetrics := mapSet st.testMetrics testId metrics
     currentTest := some testId })

/-- The first half of `finishTest` on a found record: capture the final
state into the record. -/
def updateFinalState (m : TestMetrics) (status : String) (obs : Observation) :
    TestMetrics :=
  { m with
    endTime := some obs.now
    finalMemory := some { heapUsed := obs.heapUsed, timestamp := obs.now }
    finalGlobals := some obs.globals
    finalTimers := some { count := obs.timerCount, timestamp := obs.now }
    finalEventListeners := some { count := obs.listenerCount, timestamp := obs.now }
    status := some status
    duration := some (obs.now - m.startTime) }

/-- The reports the four analyses push onto `leaksDetected`, in push order. -/
def producedLeaks (opts : LeakDetectorOptions) (m : TestMetrics) :
    List LeakReport :=
  (analyzeMemoryLeak opts m).1 ++ analyzeGlobalLeak opts m ++
    analyzeTimerLeak opts m ++ analyzeEventListenerLeak opts m

/-- The reports the analyses push onto `warnings` (only the memory-growth
warning). -/
def producedWarnings (opts : LeakDetectorOptions) (m : TestMetrics) :
    List LeakReport :=
  (analyzeMemoryLeak opts m).2

/-- The metrics record as it stands after `finishTest` ran the four
analyses on a found record. -/
def finishedMetrics (opts : LeakDetectorOptions) (m : TestMetrics)
    (status : String) (obs : Observation) : TestMetrics :=
  let m1 := updateFinalState m status obs
  { m1 with
    leaksDetected := m1.leaksDetected ++ producedLeaks opts m1
    warnings := m1.warnings ++ producedWarnings opts m1 }

/-- Method `finishTest`.  Returns the JS return value, the successor state,
and the warning log lines emitted.  On a missing id it logs and returns
null leaving the state untouched; on a found id it mutates the stored
record in place and resets `currentTest`. -/
def finishTest (opts : LeakDetectorOptions) (st : DetectorState)
    (testId status : String) (obs : Observation) :
    Option TestMetrics × DetectorState × List String :=
  match mapGet st.testMetrics testId with
  | none =>
    (none, st, ["Warning: No metrics found for test " ++ testId])
  | some m =>
    let m2 := finishedMetrics opts m status obs
    (some m2,
     { testMetrics := mapSet st.testMetrics testId m2, currentTest := none },
     [])

/-- The counting fields of `LeakSummary` (`leakTypeBreakdown` and
`worstOffenders` are presentation and omitted). -/
structure LeakSummary where
  totalTests : ℕ
  testsWithLeaks : ℕ
  testsWithWarnings : ℕ
  totalLeaks : ℕ
  totalWarnings : ℕ
deriving DecidableEq, Repr

/-- Method `getSummary`. -/
def getSummary (st : DetectorState) : LeakSummary :=
  let allMetrics := st.testMetrics.map (fun p => p.2)
  { totalTests := allMetrics.length
    testsWithLeaks := (allMetrics.filter (fun m => 0 < m.leaksDetected.length)).length
    testsWithWarnings := (allMetrics.filter (fun m => 0 < m.warnings.length)).length
    totalLeaks := (allMetrics.map (fun m => m.leaksDetected.length)).sum
    totalWarnings := (allMetrics.map (fun m => m.warnings.length)).sum }

/-- Method `cleanup`: clear the metrics map and reset `currentTest`. -/
def cleanup (_st : DetectorState) : DetectorState :=
  { testMetrics := [], currentTest := none }

/-- The ambient process/runtime state read by the capture helpers.  The
`has...` flags record whether each introspection primitive is exposed by the
host runtime (`typeof x === 'function'`). -/
structure RuntimeEnv where
  hasWindow : Bool
  windowHasDocument : Bool
  windowPropertyNames : List String
  documentNodeCount : ℕ
  globalPropertyNames : List String
  hasGetActiveHandles : Bool
  hasGetActiveRequests : Bool
  activeHandleCount : ℕ
  activeRequestCount : ℕ
  hasProcessListenerCount : Bool
  processEventsKeys : List String
  heapUsed : ℤ
  now : ℤ
deriving DecidableEq, Repr

/-- Method `getMemoryUsage`: `process.memoryUsage()` plus a timestamp; it
cannot throw. -/
def getMemoryUsage (rt : RuntimeEnv) : Except String MemoryUsage :=
  Except.ok { heapUsed := rt.heapUsed, timestamp := rt.now }

/-- Method `captureGlobalState`: `Object.getOwnPropertyNames` of `window`
(browser) or `global` (Node); it cannot throw. -/
def captureGlobalState (rt : RuntimeEnv) : Except String (List String) :=
  Except.ok (if rt.hasWindow then rt.windowPropertyNames else rt.globalPropertyNames)

/-- Method `captureTimerState`: calls
`process._getActiveHandles().length + process._getActiveRequests().length`
with no availability guard, so when either internal enumeration is not a
function the call raises a `TypeError`. -/
def captureTimerState (rt : RuntimeEnv) : Except String TimerState :=
  if rt.hasGetActiveHandles then
    if rt.hasGetActiveRequests then
      Except.ok
        { count := (rt.activeHandleCount : ℤ) + (rt.activeRequestCount : ℤ)
          timestamp := rt.now }
    else Except.error "TypeError: process._getActiveRequests is not a function"
  else Except.error "TypeError: process._getActiveHandles is not a function"

/-- Method `captureEventListenerState`: DOM node count in a browser;
in Node, `Object.keys(process._events || \x7b\x7d).length` guarded by
`typeof process.listenerCount === 'function'`, else 0.  It cannot throw. -/
def captureEventListenerState (rt : RuntimeEnv) : Except String EventListenerState :=
  Except.ok
    { count :=
        if rt.hasWindow && rt.windowHasDocument then (rt.documentNodeCount : ℤ)
        else if rt.hasProcessListenerCount then (rt.processEventsKeys.length : ℤ)
        else 0
      timestamp := rt.now }

/-
Flaky-test tracker of `src/reporters/custom-reporter.js`
(`initializeFlakyTracker`): `analyzeFlakyTests` and `saveHistory`.
Jest millisecond durations are embedded as `ℤ`.
-/

/-- One run entry of a test's durable history (and also the value recorded
for a test in the current run). -/
structure TestRun where
  timestamp : String
  status : String
  duration : ℤ
  retries : ℕ
deriving DecidableEq, Repr

/-- `history[testName]`: the object `\x7b runs: [...] \x7d`. -/
structure TestHistoryEntry where
  runs : List TestRun
deriving DecidableEq, Repr

/-- JS `Array.prototype.slice(-n)`: the last `n` elements; `slice(-0)` is
`slice(0)`, the whole array. -/
def jsSliceNeg {α : Type} (n : ℕ) (l : List α) : List α :=
  if n = 0 then l else l.drop (l.length - n)

/-- JS `Math.round`: round half toward positive infinity. -/
def jsRound (q : ℚ) : ℤ :=
  (q + Rat.divInt 1 2).floor

/-- The flakiness test applied to one history entry inside
`analyzeFlakyTests`: at least 3 durable runs, and over the trailing window
of (at most) 20 runs at least one pass, at least one failure, and a failure
rate at or above the threshold. -/
def isFlakyHistory (flakyThreshold : ℚ) (h : TestHistoryEntry) : Bool :=
  if h.runs.length < 3 then false
  else
    let recentRuns := jsSliceNeg 20 h.runs
    let failures := (recentRuns.filter (fun r => r.status == "failed")).length
    let total := recentRuns.length
    let failureRate := Rat.divInt failures total
    recentRuns.any (fun r => r.status == "passed") &&
      recentRuns.any (fun r => r.status == "failed") &&
      decide (failureRate ≥ flakyThreshold)

/-- The analysis object pushed for a flaky test (`failureRate` is the
rounded percentage). -/
structure FlakyTestAnalysis where
  testName : String
  failureRate : ℤ
  totalRuns : ℕ
  failures : ℕ
  passes : ℕ
  lastFailure : Option String
  averageDuration : ℤ
deriving DecidableEq, Repr

/-- The object pushed onto `flakyTests` for one history entry. -/
def mkFlakyAnalysis (testName : String) (h : TestHistoryEntry) :
    FlakyTestAnalysis :=
  let recentRuns := jsSliceNeg 20 h.runs
  let failures := (recentRuns.filter (fun r => r.status == "failed")).length
  let total := recentRuns.length
  let failureRate := Rat.divInt failures total
  { testName := testName
    failureRate := jsRound (failureRate * 100)
    totalRuns := total
    failures := failures
    passes := total - failures
    lastFailure :=
      ((recentRuns.filter (fun r => r.status == "failed")).getLast?).map
        (fun r => r.timestamp)
    averageDuration :=
      jsRound (Rat.divInt ((recentRuns.map (fun r => r.duration)).sum) total) }

/-- Method `analyzeFlakyTests`: filter the tracked identities by the
flakiness test, build the analysis objects, and sort descending by
(rounded) failure rate (`(a, b) => b.failureRate - a.failureRate`). -/
def analyzeFlakyTests (flakyThreshold : ℚ)
    (history : List (String × TestHistoryEntry)) : List FlakyTestAnalysis :=
  let flakyTests :=
    (history.filter (fun p => isFlakyHistory flakyThreshold p.2)).map
      (fun p => mkFlakyAnalysis p.1 p.2)
  flakyTests.mergeSort (fun a b => decide (b.failureRate ≤ a.failureRate))

/-- The trim step of `saveHistory`: drop the oldest entries when the list
exceeds `maxHistoryRuns` (`runs.slice(-maxHistoryRuns)`). -/
def trimRuns (maxHistoryRuns : ℕ) (runs : List TestRun) : List TestRun :=
  if maxHistoryRuns < runs.length then jsSliceNeg maxHistoryRuns runs else runs

/-- Method `saveHistory`: for every identity recorded in the current run,
append its entry to the identity's durable run list (a missing key starts
from the empty list) and trim to the configured maximum.  The durable
history mapping is embedded as a total function defaulting to `[]`. -/
def saveHistory (maxHistoryRuns : ℕ) (history : String → List TestRun)
    (currentRunTests : List (String × TestRun)) : String → List TestRun :=
  currentRunTests.foldl
    (fun h p => fun name =>
      if name = p.1 then trimRuns maxHistoryRuns (h name ++ [p.2]) else h name)
    history

/-
Concrete fixtures used by counterexamples and witnesses.  `cOpts` is the
constructor's default configuration (50 MB, 20 % growth, all tracking on).
-/

/-- The default options of the `LeakDetector` constructor. -/
def cOpts : LeakDetectorOptions :=
  { memoryThresholdMB := 50
    heapGrowthThreshold := Rat.divInt 1 5
    trackEventListeners := true
    trackTimers := true
    trackGlobals := true }

/-- A quiescent in-flight metrics record as `startTest` would create it. -/
def cBaseMetrics : TestMetrics :=
  { testName := "t"
    testFile := "f.ts"
    startTime := 0
    endTime := none
    duration := none
    status := none
    initialMemory := { heapUsed := 1000, timestamp := 0 }
    finalMemory := none
    initialGlobals := []
    finalGlobals := none
    initialTimers := { count := 0, timestamp := 0 }
    finalTimers := none
    initialEventListeners := { count := 0, timestamp := 0 }
    finalEventListeners := none
    leaksDetected := []
    warnings := [] }

/-- A final memory sample 100 MB above `cBaseMetrics`'s initial heap. -/
def cBigFinalMemory : MemoryUsage := { heapUsed := 1000 + 104857600, timestamp := 5 }

/-- `cBaseMetrics` finished with a 100 MB heap increase and no other change. -/
def cM1 : TestMetrics :=
  { cBaseMetrics with
    finalMemory := some cBigFinalMemory
    finalGlobals := some []
    finalTimers := some { count := 0, timestamp := 5 }
    finalEventListeners := some { count := 0, timestamp := 5 } }

/-- Claim C1: in the memory check, whenever the heap difference converted to
MB exceeds `memoryThresholdMB`, exactly one MEMORY_LEAK report of severity
high is appended and no MEMORY_GROWTH warning is; and a MEMORY_GROWTH
warning can only be appended when the absolute-MB leak did not fire, so the
two outcomes are mutually exclusive. -/
theorem claim_memory_threshold_exclusive (opts : LeakDetectorOptions)
    (m : TestMetrics) (finalMemory : MemoryUsage)
    (hf : m.finalMemory = some finalMemory) :
    (Rat.divInt (finalMemory.heapUsed - m.initialMemory.heapUsed) (1024 * 1024) >
        opts.memoryThresholdMB →
      (analyzeMemoryLeak opts m).1.map (fun r => (r.type, r.severity)) =
        [("MEMORY_LEAK", Severity.high)] ∧
      (analyzeMemoryLeak opts m).2 = []) ∧
    ((analyzeMemoryLeak opts m).2 ≠ [] →
      ¬ (Rat.divInt (finalMemory.heapUsed - m.initialMemory.heapUsed) (1024 * 1024) >
          opts.memoryThresholdMB) ∧
      (analyzeMemoryLeak opts m).1 = []) := by
  unfold analyzeMemoryLeak
  rw [hf]
  dsimp only
  split_ifs with h1 h2
  · exact ⟨fun _ => ⟨rfl, rfl⟩, fun hne => absurd rfl hne⟩
  · exact ⟨fun hgt => absurd hgt h1, fun _ => ⟨h1, rfl⟩⟩
  · exact ⟨fun hgt => absurd hgt h1, fun hne => absurd rfl hne⟩

/-- Witness for claim C1 at the concrete 100 MB-growth record `cM1`. -/
theorem claim_memory_threshold_exclusive_witness :
    cM1.finalMemory = some cBigFinalMemory ∧
    (Rat.divInt (cBigFinalMemory.heapUsed - cM1.initialMemory.heapUsed) (1024 * 1024) >
      cOpts.memoryThresholdMB) ∧
    ((analyzeMemoryLeak cOpts cM1).1.map (fun r => (r.type, r.severity)) =
        [("MEMORY_LEAK", Severity.high)] ∧
      (analyzeMemoryLeak cOpts cM1).2 = []) :=
  ⟨rfl, by decide,
    (claim_memory_threshold_exclusive cOpts cM1 cBigFinalMemory rfl).1 (by decide)⟩

/-- Claim C5: the timer and listener checks never report on a non-positive
count difference, and a strictly positive difference yields exactly one
report whose severity escalates from medium to high exactly above 5 leaked
timers respectively 10 leaked listeners, with before/after counts and the
difference in the details. -/
theorem claim_timer_listener_diff_sign (opts : LeakDetectorOptions)
    (m : TestMetrics) (finalTimers : TimerState)
    (finalListeners : EventListenerState)
    (hft : m.finalTimers = some finalTimers)
    (hfl : m.finalEventListeners = some finalListeners) :
    (finalTimers.count ≤ m.initialTimers.count → analyzeTimerLeak opts m = []) ∧
    (opts.trackTimers = true → 0 < finalTimers.count - m.initialTimers.count →
      analyzeTimerLeak opts m =
        [{ type := "TIMER_LEAK"
           severity :=
             if 5 < finalTimers.count - m.initialTimers.count then Severity.high
             else Severity.medium
           details := LeakDetails.timerLeak m.initialTimers.count finalTimers.count
             (finalTimers.count - m.initialTimers.count)
           recommendation := "Use clearTimeout() and clearInterval() to clean up timers" }]) ∧
    (finalListeners.count ≤ m.initialEventListeners.count →
      analyzeEventListenerLeak opts m = []) ∧
    (opts.trackEventListeners = true →
      0 < finalListeners.count - m.initialEventListeners.count →
      analyzeEventListenerLeak opts m =
        [{ type := "EVENT_LISTENER_LEAK"
           severity :=
             if 10 < finalListeners.count - m.initialEventListeners.count then Severity.high
             else Severity.medium
           details := LeakDetails.listenerLeak m.initialEventListeners.count
             finalListeners.count
             (finalListeners.count - m.initialEventListeners.count)
           recommendation := "Use removeEventListener() or AbortController to clean up event listeners" }]) := by
  refine ⟨?_, ?_, ?_, ?_⟩
  · intro hle
    have hneg : ¬ (0 < finalTimers.count - m.initialTimers.count) := by omega
    unfold analyzeTimerLeak
    rw [hft]
    cases opts.trackTimers <;> simp [hneg]
  · intro htrack hpos
    unfold analyzeTimerLeak
    rw [hft, htrack]
    simp [hpos]
  · intro hle
    have hneg : ¬ (0 < finalListeners.count - m.initialEventListeners.count) := by omega
    unfold analyzeEventListenerLeak
    rw [hfl]
    cases opts.trackEventListeners <;> simp [hneg]
  · intro htrack hpos
    unfold analyzeEventListenerLeak
    rw [hfl, htrack]
    simp [hpos]

/-- `cBaseMetrics` finished with 3 extra timers and 12 extra listeners. -/
def cM5 : TestMetrics :=
  { cBaseMetrics with
    finalMemory := some { heapUsed := 1000, timestamp := 5 }
    finalGlobals := some []
    finalTimers := some { count := 3, timestamp := 5 }
    finalEventListeners := some { count := 12, timestamp := 5 } }

/-- Witness for claim C5: 3 leaked timers give a medium TIMER_LEAK and 12
leaked listeners a high EVENT_LISTENER_LEAK. -/
theorem claim_timer_listener_diff_sign_witness :
    cM5.finalTimers = some { count := 3, timestamp := 5 } ∧
    cM5.finalEventListeners = some { count := 12, timestamp := 5 } ∧
    cOpts.trackTimers = true ∧ cOpts.trackEventListeners = true ∧
    analyzeTimerLeak cOpts cM5 =
      [{ type := "TIMER_LEAK"
         severity := if 5 < (3 : ℤ) - cM5.initialTimers.count then Severity.high
           else Severity.medium
         details := LeakDetails.timerLeak cM5.initialTimers.count 3
           ((3 : ℤ) - cM5.initialTimers.count)
         recommendation := "Use clearTimeout() and clearInterval() to clean up timers" }] ∧
    analyzeEventListenerLeak cOpts cM5 =
      [{ type := "EVENT_LISTENER_LEAK"
         severity := if 10 < (12 : ℤ) - cM5.initialEventListeners.count then Severity.high
           else Severity.medium
         details := LeakDetails.listenerLeak cM5.initialEventListeners.count 12
           ((12 : ℤ) - cM5.initialEventListeners.count)
         recommendation := "Use removeEventListener() or AbortController to clean up event listeners" }] :=
  ⟨rfl, rfl, rfl, rfl,
    (claim_timer_listener_diff_sign cOpts cM5 _ _ rfl rfl).2.1 rfl (by decide),
    (claim_timer_listener_diff_sign cOpts cM5 _ _ rfl rfl).2.2.2 rfl (by decide)⟩

/-- A record whose initial heap sample is 0 bytes and whose final sample is
1 byte: the heap diff is 1 byte, far below the 50 MB threshold, yet the
growth rate is `1 / 0 = +Infinity`. -/
def cM6 : TestMetrics :=
  { cBaseMetrics with
    initialMemory := { heapUsed := 0, timestamp := 0 }
    finalMemory := some { heapUsed := 1, timestamp := 5 }
    finalGlobals := some []
    finalTimers := some { count := 0, timestamp := 5 }
    finalEventListeners := some { count := 0, timestamp := 5 } }

/-- Counterexample to claim C6: with `initial.heapUsed = 0` and a final
heap of 1 byte, the growth rate is `+Infinity` and the memory check does
append a MEMORY_GROWTH warning, contradicting the no-growth-rate-signal
part of the claim. -/
theorem claim_zero_initial_growth_cex :
    (analyzeMemoryLeak cOpts cM6).2.map (fun r => (r.type, r.severity)) =
      [("MEMORY_GROWTH", Severity.medium)] := by decide

/-- Claim C6 as amended: a zero initial heap sample never crashes the rate
computation (the embedded division is total, yielding `+Infinity`, `-Infinity`
or NaN), but it is not a signal-free degenerate case: a MEMORY_GROWTH
warning is appended exactly when the absolute-MB leak did not fire and the
heap diff is strictly positive (rate `+Infinity`); only a non-positive diff
yields no growth-rate signal. -/
theorem claim_zero_initial_growth_amended (opts : LeakDetectorOptions)
    (m : TestMetrics) (finalMemory : MemoryUsage)
    (h0 : m.initialMemory.heapUsed = 0)
    (hf : m.finalMemory = some finalMemory) :
    (analyzeMemoryLeak opts m).2 ≠ [] ↔
      ¬ (Rat.divInt finalMemory.heapUsed (1024 * 1024) > opts.memoryThresholdMB) ∧
        0 < finalMemory.heapUsed := by
  unfold analyzeMemoryLeak
  rw [hf]
  dsimp only
  rw [h0, sub_zero]
  split_ifs with h1 h2
  · constructor
    · intro hne
      exact absurd rfl hne
    · intro hc
      exact absurd h1 hc.1
  · constructor
    · intro _
      refine ⟨h1, ?_⟩
      by_contra hle
      rw [jsDiv, if_pos rfl, if_neg hle] at h2
      split at h2 <;> simp [jsGt] at h2
    · intro _
      simp
  · constructor
    · intro hne
      exact absurd rfl hne
    · intro ⟨_, hpos⟩
      rw [jsDiv, if_pos rfl, if_pos hpos] at h2
      simp [jsGt] at h2

/-- Witness for the amended claim C6 at the concrete record `cM6`. -/
theorem claim_zero_initial_growth_amended_witness :
    cM6.initialMemory.heapUsed = 0 ∧
    cM6.finalMemory = some { heapUsed := 1, timestamp := 5 } ∧
    ((analyzeMemoryLeak cOpts cM6).2 ≠ [] ↔
      ¬ (Rat.divInt (1 : ℤ) (1024 * 1024) > cOpts.memoryThresholdMB) ∧ (0 : ℤ) < 1) :=
  ⟨rfl, rfl, claim_zero_initial_growth_amended cOpts cM6 _ rfl rfl⟩

/-- Claim C7: `finishTest` on an id with no in-flight record returns null,
logs a warning, raises nothing (the embedding is total), and leaves the
state — hence every later `getSummary` count — unchanged. -/
theorem claim_finishTest_missing_id (opts : LeakDetectorOptions)
    (st : DetectorState) (testId status : String) (obs : Observation)
    (h : mapGet st.testMetrics testId = none) :
    finishTest opts st testId status obs =
      (none, st, ["Warning: No metrics found for test " ++ testId]) ∧
    getSummary (finishTest opts st testId status obs).2.1 = getSummary st := by
  unfold finishTest
  rw [h]
  exact ⟨rfl, rfl⟩

/-- Witness for claim C7: finishing an id never started on a one-record
state returns null and keeps the summary. -/
theorem claim_finishTest_missing_id_witness :
    mapGet ({ testMetrics := [("f.ts > t", cBaseMetrics)], currentTest := none } :
        DetectorState).testMetrics "other" = none ∧
    finishTest cOpts { testMetrics := [("f.ts > t", cBaseMetrics)], currentTest := none }
        "other" "passed"
        { now := 5, heapUsed := 1000, globals := [], timerCount := 0, listenerCount := 0 } =
      (none, { testMetrics := [("f.ts > t", cBaseMetrics)], currentTest := none },
        ["Warning: No metrics found for test " ++ "other"]) :=
  ⟨rfl,
    (claim_finishTest_missing_id cOpts
      { testMetrics := [("f.ts > t", cBaseMetrics)], currentTest := none }
      "other" "passed"
      { now := 5, heapUsed := 1000, globals := [], timerCount := 0, listenerCount := 0 }
      rfl).1⟩

/-- The list of new globals is, as a set, the set difference of the final
and initial key sets. -/
lemma diffGlobalState_toFinset (initial finalGlobals : List String) :
    (diffGlobalState initial finalGlobals).toFinset =
      finalGlobals.toFinset \ initial.toFinset := by
  ext a
  simp [diffGlobalState, List.mem_filter]

/-- Claim C2: the global-variable check detects exactly the set difference
`final − initial`; equal key sets yield no report; a non-empty difference
yields exactly one GLOBAL_VARIABLE_LEAK whose severity is high for more
than 5 new names and medium otherwise, with the first 10 new names and the
true total count in the details. -/
theorem claim_global_diff_set_difference (opts : LeakDetectorOptions)
    (m : TestMetrics) (finalGlobals : List String)
    (ht : opts.trackGlobals = true)
    (hf : m.finalGlobals = some finalGlobals) :
    ((diffGlobalState m.initialGlobals finalGlobals).toFinset =
      finalGlobals.toFinset \ m.initialGlobals.toFinset) ∧
    (finalGlobals.toFinset = m.initialGlobals.toFinset →
      analyzeGlobalLeak opts m = []) ∧
    (finalGlobals.Nodup →
      (diffGlobalState m.initialGlobals finalGlobals).length =
        (finalGlobals.toFinset \ m.initialGlobals.toFinset).card) ∧
    (diffGlobalState m.initialGlobals finalGlobals ≠ [] →
      analyzeGlobalLeak opts m =
        [{ type := "GLOBAL_VARIABLE_LEAK"
           severity :=
             if 5 < (diffGlobalState m.initialGlobals finalGlobals).length then Severity.high
             else Severity.medium
           details := LeakDetails.globalLeak
             ((diffGlobalState m.initialGlobals finalGlobals).take 10)
             (diffGlobalState m.initialGlobals finalGlobals).length
           recommendation := "Clean up global variables in afterEach hooks or use proper scoping" }]) ∧
    (diffGlobalState m.initialGlobals finalGlobals = [] →
      analyzeGlobalLeak opts m = []) := by
  have hempty : ∀ hd : diffGlobalState m.initialGlobals finalGlobals = [],
      analyzeGlobalLeak opts m = [] := by
    intro hd
    unfold analyzeGlobalLeak
    rw [ht, hf]
    dsimp only
    rw [hd]
    simp
  refine ⟨diffGlobalState_toFinset _ _, ?_, ?_, ?_, hempty⟩
  · intro heq
    apply hempty
    unfold diffGlobalState
    rw [List.filter_eq_nil_iff]
    intro a ha
    have : a ∈ m.initialGlobals := by
      rw [← List.mem_toFinset, ← heq, List.mem_toFinset]
      exact ha
    simp [this]
  · intro hnd
    rw [← diffGlobalState_toFinset, List.toFinset_card_of_nodup]
    exact List.Nodup.filter _ hnd
  · intro hne
    unfold analyzeGlobalLeak
    rw [ht, hf]
    dsimp only
    rw [if_pos (List.length_pos.mpr hne)]
    rfl

/-- A record producing 6 new globals, one above the severity cutoff. -/
def cM2 : TestMetrics :=
  { cBaseMetrics with
    initialGlobals := ["a", "b"]
    finalMemory := some { heapUsed := 1000, timestamp := 5 }
    finalGlobals := some ["a", "g1", "g2", "g3", "g4", "g5", "g6", "b"]
    finalTimers := some { count := 0, timestamp := 5 }
    finalEventListeners := some { count := 0, timestamp := 5 } }

/-- Witness for claim C2 at the concrete record `cM2` (6 new globals, so a
single high-severity report with all 6 names and count 6). -/
theorem claim_global_diff_set_difference_witness :
    cOpts.trackGlobals = true ∧
    cM2.finalGlobals = some ["a", "g1", "g2", "g3", "g4", "g5", "g6", "b"] ∧
    diffGlobalState cM2.initialGlobals ["a", "g1", "g2", "g3", "g4", "g5", "g6", "b"] ≠ [] ∧
    analyzeGlobalLeak cOpts cM2 =
      [{ type := "GLOBAL_VARIABLE_LEAK"
         severity :=
           if 5 < (diffGlobalState cM2.initialGlobals
               ["a", "g1", "g2", "g3", "g4", "g5", "g6", "b"]).length then Severity.high
           else Severity.medium
         details := LeakDetails.globalLeak
           ((diffGlobalState cM2.initialGlobals
               ["a", "g1", "g2", "g3", "g4", "g5", "g6", "b"]).take 10)
           (diffGlobalState cM2.initialGlobals
             ["a", "g1", "g2", "g3", "g4", "g5", "g6", "b"]).length
         recommendation := "Clean up global variables in afterEach hooks or use proper scoping" }] :=
  ⟨rfl, rfl, by decide,
    (claim_global_diff_set_difference cOpts cM2 _ rfl rfl).2.2.2.1 (by decide)⟩

/-- Every report the memory check pushes onto `leaksDetected` is a
high-severity MEMORY_LEAK. -/
lemma analyzeMemoryLeak_fst_spec (opts : LeakDetectorOptions) (m : TestMetrics)
    (r : LeakReport) (h : r ∈ (analyzeMemoryLeak opts m).1) :
    r.type = "MEMORY_LEAK" ∧ r.severity = Severity.high := by
  unfold analyzeMemoryLeak at h
  split at h
  · simp at h
  · dsimp only at h
    split_ifs at h <;> simp at h
    subst h
    exact ⟨rfl, rfl⟩

/-- Every report the memory check pushes onto `warnings` is a
medium-severity MEMORY_GROWTH. -/
lemma analyzeMemoryLeak_snd_spec (opts : LeakDetectorOptions) (m : TestMetrics)
    (r : LeakReport) (h : r ∈ (analyzeMemoryLeak opts m).2) :
    r.type = "MEMORY_GROWTH" ∧ r.severity = Severity.medium := by
  unfold analyzeMemoryLeak at h
  split at h
  · simp at h
  · dsimp only at h
    split_ifs at h <;> simp at h
    subst h
    exact ⟨rfl, rfl⟩

/-- Every report of the global check is a GLOBAL_VARIABLE_LEAK of severity
high or medium. -/
lemma analyzeGlobalLeak_spec (opts : LeakDetectorOptions) (m : TestMetrics)
    (r : LeakReport) (h : r ∈ analyzeGlobalLeak opts m) :
    r.type = "GLOBAL_VARIABLE_LEAK" ∧
      (r.severity = Severity.high ∨ r.severity = Severity.medium) := by
  unfold analyzeGlobalLeak at h
  split at h
  · simp at h
  · split at h
    · simp at h
    · dsimp only at h
      split_ifs at h <;> simp at h
      all_goals subst h
      all_goals exact ⟨rfl, by simp⟩

/-- Every report of the timer check is a TIMER_LEAK of severity high or
medium. -/
lemma analyzeTimerLeak_spec (opts : LeakDetectorOptions) (m : TestMetrics)
    (r : LeakReport) (h : r ∈ analyzeTimerLeak opts m) :
    r.type = "TIMER_LEAK" ∧
      (r.severity = Severity.high ∨ r.severity = Severity.medium) := by
  unfold analyzeTimerLeak at h
  split at h
  · simp at h
  · split at h
    · simp at h
    · dsimp only at h
      split_ifs at h <;> simp at h
      all_goals subst h
      all_goals exact ⟨rfl, by simp⟩

/-- Every report of the listener check is an EVENT_LISTENER_LEAK of
severity high or medium. -/
lemma analyzeEventListenerLeak_spec (opts : LeakDetectorOptions)
    (m : TestMetrics) (r : LeakReport) (h : r ∈ analyzeEventListenerLeak opts m) :
    r.type = "EVENT_LISTENER_LEAK" ∧
      (r.severity = Severity.high ∨ r.severity = Severity.medium) := by
  unfold analyzeEventListenerLeak at h
  split at h
  · simp at h
  · split at h
    · simp at h
    · dsimp only at h
      split_ifs at h <;> simp at h
      all_goals subst h
      all_goals exact ⟨rfl, by simp⟩

/-- A detector state holding the single quiescent in-flight record. -/
def cSt9 : DetectorState :=
  { testMetrics := [("f.ts > t", cBaseMetrics)], currentTest := some "f.ts > t" }

/-- A final observation identical to the initial one except for one new
global property. -/
def cObs9 : Observation :=
  { now := 5, heapUsed := 1000, globals := ["leakedVar"], timerCount := 0
    listenerCount := 0 }

/-- Counterexample to claim C9: finishing the quiescent record after a test
that leaked a single global variable stores a severity-medium report in
`leaksDetected`, so not every stored leak report has severity high. -/
theorem claim_leak_severity_cex :
    ((finishTest cOpts cSt9 "f.ts > t" "passed" cObs9).1.map
      (fun m2 => m2.leaksDetected.map (fun r => (r.type, r.severity)))) =
      some [("GLOBAL_VARIABLE_LEAK", Severity.medium)] := by decide

/-- Claim C9 as amended: after `finishTest` on a record with empty report
lists, every warning has severity medium (strictly below high), and every
report in `leaksDetected` has severity high or medium — MEMORY_LEAK
reports are always high, while the global, timer and listener leak reports
can be stored at severity medium. -/
theorem claim_leak_severity_amended (opts : LeakDetectorOptions)
    (st : DetectorState) (testId status : String) (obs : Observation)
    (m : TestMetrics)
    (hm : mapGet st.testMetrics testId = some m)
    (hl : m.leaksDetected = []) (hw : m.warnings = []) :
    ∀ m2, (finishTest opts st testId status obs).1 = some m2 →
      (∀ r ∈ m2.warnings, r.severity = Severity.medium) ∧
      (∀ r ∈ m2.leaksDetected,
        r.severity = Severity.high ∨ r.severity = Severity.medium) ∧
      (∀ r ∈ m2.leaksDetected, r.type = "MEMORY_LEAK" →
        r.severity = Severity.high) := by
  intro m2 h2
  unfold finishTest at h2
  rw [hm] at h2
  dsimp only at h2
  injection h2 with h2
  subst h2
  have hleq : (finishedMetrics opts m status obs).leaksDetected =
      producedLeaks opts (updateFinalState m status obs) := by
    show m.leaksDetected ++ _ = _
    rw [hl, List.nil_append]
  have hweq : (finishedMetrics opts m status obs).warnings =
      producedWarnings opts (updateFinalState m status obs) := by
    show m.warnings ++ _ = _
    rw [hw, List.nil_append]
  refine ⟨?_, ?_, ?_⟩
  · intro r hr
    rw [hweq] at hr
    exact (analyzeMemoryLeak_snd_spec _ _ _ hr).2
  · intro r hr
    rw [hleq] at hr
    unfold producedLeaks at hr
    rcases List.mem_append.mp hr with hr | hr4
    rcases List.mem_append.mp hr with hr | hr3
    rcases List.mem_append.mp hr with hr1 | hr2
    · exact Or.inl (analyzeMemoryLeak_fst_spec _ _ _ hr1).2
    · exact (analyzeGlobalLeak_spec _ _ _ hr2).2
    · exact (analyzeTimerLeak_spec _ _ _ hr3).2
    · exact (analyzeEventListenerLeak_spec _ _ _ hr4).2
  · intro r hr hty
    rw [hleq] at hr
    unfold producedLeaks at hr
    rcases List.mem_append.mp hr with hr | hr4
    rcases List.mem_append.mp hr with hr | hr3
    rcases List.mem_append.mp hr with hr1 | hr2
    · exact (analyzeMemoryLeak_fst_spec _ _ _ hr1).2
    · rw [(analyzeGlobalLeak_spec _ _ _ hr2).1] at hty
      exact absurd hty (by decide)
    · rw [(analyzeTimerLeak_spec _ _ _ hr3).1] at hty
      exact absurd hty (by decide)
    · rw [(analyzeEventListenerLeak_spec _ _ _ hr4).1] at hty
      exact absurd hty (by decide)

/-- Witness for the amended claim C9 at the concrete state `cSt9`: the
warnings stored by the finishing call are all medium and the leaks all high
or medium. -/
theorem claim_leak_severity_amended_witness :
    mapGet cSt9.testMetrics "f.ts > t" = some cBaseMetrics ∧
    cBaseMetrics.leaksDetected = [] ∧
    cBaseMetrics.warnings = [] ∧
    ((finishedMetrics cOpts cBaseMetrics "passed" cObs9).warnings.all
      (fun r => r.severity == Severity.medium)) = true ∧
    ((finishedMetrics cOpts cBaseMetrics "passed" cObs9).leaksDetected.all
      (fun r => r.severity == Severity.high || r.severity == Severity.medium)) = true := by
  have h := claim_leak_severity_amended cOpts cSt9 "f.ts > t" "passed" cObs9
    cBaseMetrics rfl rfl rfl (finishedMetrics cOpts cBaseMetrics "passed" cObs9) rfl
  refine ⟨rfl, rfl, rfl, ?_, ?_⟩
  · rw [List.all_eq_true]
    intro r hr
    rw [h.1 r hr]
    rfl
  · rw [List.all_eq_true]
    intro r hr
    rcases h.2.1 r hr with hs | hs <;> rw [hs] <;> rfl

/-- Replacing the binding of a present key makes lookup return the new
value. -/
lemma mapGet_map_replace {α : Type} (l : List (String × α)) (k : String)
    (v : α) (hany : l.any (fun p => p.1 == k) = true) :
    mapGet (l.map (fun p => if p.1 == k then (k, v) else p)) k = some v := by
  induction l with
  | nil => simp at hany
  | cons p rest ih =>
    by_cases hp : (p.1 == k) = true
    · unfold mapGet
      rw [List.map_cons, if_pos hp, List.find?_cons_of_pos]
      · rfl
      · simp
    · unfold mapGet
      rw [List.map_cons, if_neg hp, List.find?_cons_of_neg _ (by simpa using hp)]
      have hrest : rest.any (fun p => p.1 == k) = true := by
        rcases List.any_eq_true.mp hany with ⟨q, hq, hqk⟩
        rcases List.mem_cons.mp hq with rfl | hq2
        · exact absurd hqk (by simpa using hp)
        · exact List.any_eq_true.mpr ⟨q, hq2, hqk⟩
      exact ih hrest

/-- `Map.set` on a key that is present leaves the key bound to the new
value. -/
lemma mapGet_mapSet_self {α : Type} (l : List (String × α)) (k : String)
    (v m : α) (h : mapGet l k = some m) :
    mapGet (mapSet l k v) k = some v := by
  have hany : l.any (fun p => p.1 == k) = true := by
    unfold mapGet at h
    rcases hf : l.find? (fun p => p.1 == k) with _ | p
    · rw [hf] at h
      simp at h
    · exact List.any_eq_true.mpr
        ⟨p, List.mem_of_find?_eq_some hf, by simpa using List.find?_some hf⟩
  unfold mapSet
  rw [if_pos hany]
  exact mapGet_map_replace l k v hany

/-- Claim C10: `finishTest` does not remove the record, so a second call on
the same id returns non-null again, overwrites the final snapshots, status
and duration from the second observation, and appends the re-run analyses'
reports onto the lists the first call already produced. -/
theorem claim_finishTest_accumulates (opts : LeakDetectorOptions)
    (st : DetectorState) (testId status1 status2 : String)
    (obs1 obs2 : Observation) (m : TestMetrics)
    (hm : mapGet st.testMetrics testId = some m) :
    (finishTest opts st testId status1 obs1).1 =
      some (finishedMetrics opts m status1 obs1) ∧
    mapGet (finishTest opts st testId status1 obs1).2.1.testMetrics testId =
      some (finishedMetrics opts m status1 obs1) ∧
    (finishTest opts (finishTest opts st testId status1 obs1).2.1 testId
        status2 obs2).1 =
      some (finishedMetrics opts (finishedMetrics opts m status1 obs1)
        status2 obs2) ∧
    (finishedMetrics opts (finishedMetrics opts m status1 obs1) status2
        obs2).leaksDetected =
      m.leaksDetected ++ producedLeaks opts (updateFinalState m status1 obs1) ++
        producedLeaks opts
          (updateFinalState (finishedMetrics opts m status1 obs1) status2 obs2) ∧
    (finishedMetrics opts (finishedMetrics opts m status1 obs1) status2
        obs2).warnings =
      m.warnings ++ producedWarnings opts (updateFinalState m status1 obs1) ++
        producedWarnings opts
          (updateFinalState (finishedMetrics opts m status1 obs1) status2 obs2) ∧
    (finishedMetrics opts (finishedMetrics opts m status1 obs1) status2
        obs2).status = some status2 ∧
    (finishedMetrics opts (finishedMetrics opts m status1 obs1) status2
        obs2).finalMemory = some { heapUsed := obs2.heapUsed, timestamp := obs2.now } ∧
    (finishedMetrics opts (finishedMetrics opts m status1 obs1) status2
        obs2).duration = some (obs2.now - m.startTime) := by
  have h1 : finishTest opts st testId status1 obs1 =
      (some (finishedMetrics opts m status1 obs1),
       { testMetrics :=
           mapSet st.testMetrics testId (finishedMetrics opts m status1 obs1)
         currentTest := none },
       []) := by
    unfold finishTest
    rw [hm]
  have h2 : mapGet
      (mapSet st.testMetrics testId (finishedMetrics opts m status1 obs1))
      testId = some (finishedMetrics opts m status1 obs1) :=
    mapGet_mapSet_self _ _ _ _ hm
  refine ⟨by rw [h1], ?_, ?_, rfl, rfl, rfl, rfl, rfl⟩
  · rw [h1]
    exact h2
  · rw [h1]
    unfold finishTest
    dsimp only
    rw [h2]

/-- Witness for claim C10: finishing the quiescent one-record state twice
returns non-null both times and the second record carries both calls'
reports. -/
theorem claim_finishTest_accumulates_witness :
    mapGet cSt9.testMetrics "f.ts > t" = some cBaseMetrics ∧
    (finishTest cOpts cSt9 "f.ts > t" "passed" cObs9).1 =
      some (finishedMetrics cOpts cBaseMetrics "passed" cObs9) ∧
    (finishTest cOpts (finishTest cOpts cSt9 "f.ts > t" "passed" cObs9).2.1
        "f.ts > t" "failed" cObs9).1 =
      some (finishedMetrics cOpts (finishedMetrics cOpts cBaseMetrics "passed" cObs9)
        "failed" cObs9) :=
  ⟨rfl,
    (claim_finishTest_accumulates cOpts cSt9 "f.ts > t" "passed" "failed"
      cObs9 cObs9 cBaseMetrics rfl).1,
    (claim_finishTest_accumulates cOpts cSt9 "f.ts > t" "passed" "failed"
      cObs9 cObs9 cBaseMetrics rfl).2.2.1⟩

/-- A Node-like runtime state in which the internal introspection
primitives (`process._getActiveHandles`, `process._getActiveRequests`,
`process.listenerCount`) are not exposed. -/
def cRtBad : RuntimeEnv :=
  { hasWindow := false
    windowHasDocument := false
    windowPropertyNames := []
    documentNodeCount := 0
    globalPropertyNames := []
    hasGetActiveHandles := false
    hasGetActiveRequests := false
    activeHandleCount := 0
    activeRequestCount := 0
    hasProcessListenerCount := false
    processEventsKeys := []
    heapUsed := 0
    now := 0 }

/-- Claim C4 evaluated at the failing runtime: when the internal
active-handle enumeration is unavailable, `captureTimerState` raises a
TypeError instead of returning a zero count, while the listener capture on
the same runtime degrades to a zero count as the claim demands. -/
theorem claim_capture_timer_throws :
    captureTimerState cRtBad =
      Except.error "TypeError: process._getActiveHandles is not a function" ∧
    captureEventListenerState cRtBad =
      Except.ok { count := 0, timestamp := 0 } ∧
    getMemoryUsage cRtBad = Except.ok { heapUsed := 0, timestamp := 0 } ∧
    captureGlobalState cRtBad = Except.ok [] :=
  ⟨rfl, rfl, rfl, rfl⟩

/-- One fold step of `saveHistory`. -/
lemma saveHistory_cons (M : ℕ) (history : String → List TestRun)
    (p : String × TestRun) (rest : List (String × TestRun)) :
    saveHistory M history (p :: rest) =
      saveHistory M
        (fun name =>
          if name = p.1 then trimRuns M (history name ++ [p.2]) else history name)
        rest := rfl

/-- Identities not recorded in the current run keep their history. -/
lemma saveHistory_of_not_mem (M : ℕ) (history : String → List TestRun)
    (current : List (String × TestRun)) (name : String)
    (h : ∀ e, (name, e) ∉ current) :
    saveHistory M history current name = history name := by
  induction current generalizing history with
  | nil => rfl
  | cons p rest ih =>
    obtain ⟨k, v⟩ := p
    have hne : name ≠ k := by
      intro he
      exact h v (by rw [he]; exact List.mem_cons_self _ _)
    rw [saveHistory_cons]
    rw [ih _ (fun e he => h e (List.mem_cons_of_mem _ he))]
    simp [hne]

/-- An identity recorded in the current run (with no duplicate key) gets
its entry appended and the list trimmed. -/
lemma saveHistory_of_mem (M : ℕ) (history : String → List TestRun)
    (current : List (String × TestRun)) (name : String) (e : TestRun)
    (hnd : (current.map Prod.fst).Nodup) (hmem : (name, e) ∈ current) :
    saveHistory M history current name = trimRuns M (history name ++ [e]) := by
  induction current generalizing history with
  | nil => cases hmem
  | cons p rest ih =>
    obtain ⟨k, v⟩ := p
    rw [saveHistory_cons]
    rw [List.map_cons, List.nodup_cons] at hnd
    rcases List.mem_cons.mp hmem with heq | hmem2
    · have hk : name = k := congrArg Prod.fst heq
      have hv : e = v := congrArg Prod.snd heq
      subst hk
      subst hv
      have hnotin : ∀ e2, (name, e2) ∉ rest := by
        intro e2 hin
        exact hnd.1 (List.mem_map.mpr ⟨(name, e2), hin, rfl⟩)
      rw [saveHistory_of_not_mem _ _ _ _ hnotin]
      simp
    · have hne : name ≠ k := by
        intro he
        subst he
        exact hnd.1 (List.mem_map.mpr ⟨(name, e), hmem2, rfl⟩)
      rw [ih _ hnd.2 hmem2]
      simp [hne]

/-- With a positive maximum, trimming is exactly keeping the trailing `M`
entries. -/
lemma trimRuns_eq_drop (M : ℕ) (hM : 1 ≤ M) (l : List TestRun) :
    trimRuns M l = l.drop (l.length - M) := by
  unfold trimRuns jsSliceNeg
  by_cases hc : M < l.length
  · rw [if_pos hc, if_neg (by omega)]
  · rw [if_neg hc]
    have h0 : l.length - M = 0 := by omega
    rw [h0, List.drop_zero]

/-- Claim C8: after `saveHistory` with configured maximum `M` (always at
least 1), every identity's persisted run list has length at most `M`; an
identity recorded in the current run ends with the trailing `M` entries of
its old history plus the new entry, in original order; all other identities
are untouched. -/
theorem claim_saveHistory_truncation (M : ℕ)
    (history : String → List TestRun)
    (current : List (String × TestRun))
    (hM : 1 ≤ M)
    (hnd : (current.map Prod.fst).Nodup)
    (hlen : ∀ name, (history name).length ≤ M) :
    (∀ name, (saveHistory M history current name).length ≤ M) ∧
    (∀ name e, (name, e) ∈ current →
      saveHistory M history current name =
        (history name ++ [e]).drop ((history name).length + 1 - M)) ∧
    (∀ name, (∀ e, (name, e) ∉ current) →
      saveHistory M history current name = history name) := by
  have hdrop : ∀ name e, (name, e) ∈ current →
      saveHistory M history current name =
        (history name ++ [e]).drop ((history name).length + 1 - M) := by
    intro name e hmem
    rw [saveHistory_of_mem M history current name e hnd hmem,
      trimRuns_eq_drop M hM]
    simp
  refine ⟨?_, hdrop, fun name h => saveHistory_of_not_mem M history current name h⟩
  intro name
  by_cases hx : ∃ e, (name, e) ∈ current
  · obtain ⟨e, he⟩ := hx
    rw [hdrop name e he]
    simp only [List.length_drop, List.length_append, List.length_cons,
      List.length_nil]
    omega
  · push_neg at hx
    rw [saveHistory_of_not_mem M history current name hx]
    exact hlen name

/-- A sample run entry. -/
def cRun8 : TestRun :=
  { timestamp := "2024-01-01T00:00:00.000Z", status := "passed", duration := 10
    retries := 0 }

/-- A durable history of two runs for every identity. -/
def cHist8 : String → List TestRun := fun _ => [cRun8, cRun8]

/-- Witness for claim C8: with maximum 2, a third appended entry leaves the
identity with exactly the last 2 entries. -/
theorem claim_saveHistory_truncation_witness :
    1 ≤ 2 ∧ (([("a", cRun8)].map Prod.fst).Nodup) ∧
    saveHistory 2 cHist8 [("a", cRun8)] "a" =
      (cHist8 "a" ++ [cRun8]).drop ((cHist8 "a").length + 1 - 2) ∧
    (saveHistory 2 cHist8 [("a", cRun8)] "a").length ≤ 2 :=
  ⟨by decide, by decide,
    (claim_saveHistory_truncation 2 cHist8 [("a", cRun8)] (by decide)
      (by decide) (fun _ => Nat.le.refl)).2.1 "a" cRun8 (List.mem_cons_self _ _),
    (claim_saveHistory_truncation 2 cHist8 [("a", cRun8)] (by decide)
      (by decide) (fun _ => Nat.le.refl)).1 "a"⟩

/-- Claim C3: an identity appears in the result of `analyzeFlakyTests`
exactly when its durable history passes the flakiness test (length at
least 3, and over the trailing 20-run window at least one pass, at least
one failure, and failure rate at or above the threshold); the result is
sorted descending by (rounded) failure rate; an all-passed trailing window
is never flaky, and a 2-entry history is never flaky. -/
theorem claim_flaky_classification (flakyThreshold : ℚ)
    (history : List (String × TestHistoryEntry)) :
    (∀ a, a ∈ analyzeFlakyTests flakyThreshold history ↔
      ∃ p ∈ history, isFlakyHistory flakyThreshold p.2 = true ∧
        a = mkFlakyAnalysis p.1 p.2) ∧
    List.Pairwise (fun x y => y.failureRate ≤ x.failureRate)
      (analyzeFlakyTests flakyThreshold history) ∧
    (∀ h : TestHistoryEntry,
      (jsSliceNeg 20 h.runs).all (fun r => r.status == "passed") = true →
      isFlakyHistory flakyThreshold h = false) ∧
    (∀ h : TestHistoryEntry, h.runs.length = 2 →
      isFlakyHistory flakyThreshold h = false) := by
  refine ⟨?_, ?_, ?_, ?_⟩
  · intro a
    unfold analyzeFlakyTests
    rw [List.mem_mergeSort]
    constructor
    · intro ha
      rcases List.mem_map.mp ha with ⟨p, hp, hmk⟩
      rcases List.mem_filter.mp hp with ⟨hmem, hcond⟩
      exact ⟨p, hmem, hcond, hmk.symm⟩
    · rintro ⟨p, hmem, hcond, rfl⟩
      exact List.mem_map.mpr ⟨p, List.mem_filter.mpr ⟨hmem, hcond⟩, rfl⟩
  · unfold analyzeFlakyTests
    have htrans : ∀ a b c : FlakyTestAnalysis,
        decide (b.failureRate ≤ a.failureRate) = true →
        decide (c.failureRate ≤ b.failureRate) = true →
        decide (c.failureRate ≤ a.failureRate) = true := by
      intro a b c hab hbc
      simp only [decide_eq_true_eq] at *
      omega
    have htotal : ∀ a b : FlakyTestAnalysis,
        (decide (b.failureRate ≤ a.failureRate) ||
          decide (a.failureRate ≤ b.failureRate)) = true := by
      intro a b
      simp only [Bool.or_eq_true, decide_eq_true_eq]
      omega
    have hs := @List.sorted_mergeSort FlakyTestAnalysis
      (fun a b => decide (b.failureRate ≤ a.failureRate)) htrans htotal
      ((history.filter (fun p => isFlakyHistory flakyThreshold p.2)).map
        (fun p => mkFlakyAnalysis p.1 p.2))
    exact hs.imp (fun hab => of_decide_eq_true hab)
  · intro h hall
    unfold isFlakyHistory
    by_cases hlen : h.runs.length < 3
    · rw [if_pos hlen]
    · rw [if_neg hlen]
      dsimp only
      have hnof : (jsSliceNeg 20 h.runs).any (fun r => r.status == "failed") = false := by
        rw [List.any_eq_false]
        intro r hr
        have hp := List.all_eq_true.mp hall r hr
        have hst : r.status = "passed" := by simpa using hp
        simp [hst]
      rw [hnof]
      simp
  · intro h h2
    unfold isFlakyHistory
    rw [if_pos (by omega : h.runs.length < 3)]

/-- A 2-run mixed history: too short to be classified flaky. -/
def cHist2 : TestHistoryEntry :=
  { runs := [{ timestamp := "r1", status := "passed", duration := 10, retries := 0 },
             { timestamp := "r2", status := "failed", duration := 10, retries := 0 }] }

/-- A 3-run history with one failure: flaky at a 20 % threshold. -/
def cHist3 : TestHistoryEntry :=
  { runs := [{ timestamp := "r1", status := "passed", duration := 10, retries := 0 },
             { timestamp := "r2", status := "failed", duration := 10, retries := 0 },
             { timestamp := "r3", status := "passed", duration := 10, retries := 0 }] }

/-- Witness for claim C3 at a concrete threshold and histories: a 2-run
mixed history is not flaky, while a 3-run mixed history above the
threshold appears in the analysis result. -/
theorem claim_flaky_classification_witness :
    cHist2.runs.length = 2 ∧
    isFlakyHistory (Rat.divInt 1 5) cHist2 = false ∧
    mkFlakyAnalysis "a" cHist3 ∈ analyzeFlakyTests (Rat.divInt 1 5) [("a", cHist3)] :=
  ⟨rfl,
    (claim_flaky_classification (Rat.divInt 1 5) []).2.2.2 cHist2 rfl,
    ((claim_flaky_classification (Rat.divInt 1 5) [("a", cHist3)]).1 _).mpr
      ⟨("a", cHist3), List.mem_cons_self _ _, by decide, rfl⟩⟩

end JestUtils
